import Mathlib

/-!
Shallow embedding of the i386 ELF back-end (`src/elf/arch-i386.cc`):
byte-level memory model, relocation types, PLT emitters, the addend
writer, the relocation scanner, and the two relocation appliers.
External collaborators (addend reader, dynamic-absolute-relocation
helper, scan policy tables, TLS relax policy predicates, fragment and
tombstone lookup) are universally quantified parameters of the
embedding, so every theorem holds for all of their behaviours.
-/

namespace I386

/-- Output memory: a map from absolute byte addresses to byte values. -/
def Mem : Type := Int → Nat

/-- Little-endian truncating store of `w` bytes, as performed by the
`ul16`/`ul32` typed writes and plain `u8` stores in the source:
the value is truncated modulo `2^(8*w)` and laid out low byte first. -/
def storeN (w : Nat) (mem : Mem) (loc : Int) (v : Int) : Mem :=
  fun a =>
    if loc ≤ a ∧ a < loc + (w : Int) then
      ((v % ((2 : Int) ^ (8 * w))).toNat / 256 ^ (a - loc).toNat) % 256
    else mem a

/-- `*loc = val` with `val` truncated to `u8`. -/
def store8 (mem : Mem) (loc : Int) (v : Int) : Mem := storeN 1 mem loc v

/-- `*(ul16 *)loc = val`. -/
def store16 (mem : Mem) (loc : Int) (v : Int) : Mem := storeN 2 mem loc v

/-- `*(ul32 *)loc = val`. -/
def store32 (mem : Mem) (loc : Int) (v : Int) : Mem := storeN 4 mem loc v

/-- `memcpy(loc, bytes, bytes.length)`. -/
def memcpyB (mem : Mem) (loc : Int) (bs : List Nat) : Mem :=
  fun a =>
    if loc ≤ a ∧ a < loc + (bs.length : Int) then bs.getD (a - loc).toNat 0
    else mem a

/-- Single `u8` assignment `loc[0] = v` (truncating to a byte). -/
def setByte (mem : Mem) (loc : Int) (v : Nat) : Mem :=
  fun a => if a = loc then v % 256 else mem a

/-- The i386 relocation types handled by the back-end, plus a
constructor for any other (unknown) relocation type value. -/
inductive RType where
  | R_NONE
  | R_386_8
  | R_386_16
  | R_386_32
  | R_386_PC8
  | R_386_PC16
  | R_386_PC32
  | R_386_GOT32
  | R_386_GOT32X
  | R_386_PLT32
  | R_386_GOTOFF
  | R_386_GOTPC
  | R_386_TLS_GOTIE
  | R_386_TLS_LE
  | R_386_TLS_IE
  | R_386_TLS_GD
  | R_386_TLS_LDM
  | R_386_TLS_LDO_32
  | R_386_SIZE32
  | R_386_TLS_GOTDESC
  | R_386_TLS_DESC_CALL
  | R_UNKNOWN (n : Nat)
  deriving DecidableEq, Repr

/-- ELF32 REL relocation record: offset, type, symbol index. -/
structure ElfRel where
  r_offset : Int
  r_type : RType
  r_sym : Nat
  deriving DecidableEq, Repr

/-- Resolved symbol as seen by the back-end: address, slot indices and
slot addresses assigned by the external allocator, and predicates. -/
structure Symbol where
  addr : Int
  got_idx : Int
  gotplt_addrv : Int
  got_addrv : Int
  gottp_addrv : Int
  tlsgd_addrv : Int
  tlsdesc_addrv : Int
  plt_idx : Int
  st_size : Int
  has_got : Bool
  has_tlsgd : Bool
  has_tlsdesc : Bool
  is_imported : Bool
  is_relative : Bool
  is_ifunc : Bool
  hasFile : Bool
  deriving DecidableEq, Repr

/-- Linker context fields consumed by the back-end. -/
structure Ctx where
  pic : Bool
  relax : Bool
  got_addr : Int
  gotplt_addr : Int
  tp_addr : Int
  tls_begin : Int
  got_has_tlsld : Bool
  tlsld_addr : Int
  deriving DecidableEq, Repr

/-- PIC PLT header encoding (before the displacement is patched in). -/
def pltHdrPic : List Nat :=
  [0xf3, 0x0f, 0x1e, 0xfb, 0x51, 0x8d, 0x8b, 0, 0, 0, 0, 0xff, 0x31,
   0xff, 0x61, 0x04]

/-- Non-PIC PLT header encoding. -/
def pltHdrNoPic : List Nat :=
  [0xf3, 0x0f, 0x1e, 0xfb, 0x51, 0xb9, 0, 0, 0, 0, 0xff, 0x31,
   0xff, 0x61, 0x04, 0xcc]

/-- PIC per-symbol PLT entry encoding. -/
def pltEntPic : List Nat :=
  [0xf3, 0x0f, 0x1e, 0xfb, 0xb9, 0, 0, 0, 0, 0xff, 0xa3, 0, 0, 0, 0, 0xcc]

/-- Non-PIC per-symbol PLT entry encoding. -/
def pltEntNoPic : List Nat :=
  [0xf3, 0x0f, 0x1e, 0xfb, 0xb9, 0, 0, 0, 0, 0xff, 0x25, 0, 0, 0, 0, 0xcc]

/-- PIC pltgot entry encoding. -/
def pltgotPic : List Nat :=
  [0xf3, 0x0f, 0x1e, 0xfb, 0xff, 0xa3, 0, 0, 0, 0,
   0xcc, 0xcc, 0xcc, 0xcc, 0xcc, 0xcc]

/-- Non-PIC pltgot entry encoding. -/
def pltgotNoPic : List Nat :=
  [0xf3, 0x0f, 0x1e, 0xfb, 0xff, 0x25, 0, 0, 0, 0,
   0xcc, 0xcc, 0xcc, 0xcc, 0xcc, 0xcc]

/-- `write_plt_header(ctx, buf)`: copy the PIC or non-PIC header
template and patch its 32-bit displacement field. -/
def write_plt_header (ctx : Ctx) (buf : Int) (mem : Mem) : Mem :=
  if ctx.pic then
    store32 (memcpyB mem buf pltHdrPic) (buf + 7)
      (ctx.gotplt_addr - ctx.got_addr + 4)
  else
    store32 (memcpyB mem buf pltHdrNoPic) (buf + 6) (ctx.gotplt_addr + 4)

/-- `write_plt_entry(ctx, buf, sym)`: copy the entry template, patch the
GOT displacement, then patch the relocation offset `plt_idx * 8`
(`sizeof(ElfRel<E>)` is 8 on ELF32 REL). -/
def write_plt_entry (ctx : Ctx) (buf : Int) (sym : Symbol) (mem : Mem) : Mem :=
  let m1 :=
    if ctx.pic then
      store32 (memcpyB mem buf pltEntPic) (buf + 11)
        (sym.gotplt_addrv - ctx.got_addr)
    else
      store32 (memcpyB mem buf pltEntNoPic) (buf + 11) sym.gotplt_addrv
  store32 m1 (buf + 5) (sym.plt_idx * 8)

/-- `write_pltgot_entry(ctx, buf, sym)`. -/
def write_pltgot_entry (ctx : Ctx) (buf : Int) (sym : Symbol) (mem : Mem) :
    Mem :=
  if ctx.pic then
    store32 (memcpyB mem buf pltgotPic) (buf + 6)
      (sym.got_addrv - ctx.got_addr)
  else
    store32 (memcpyB mem buf pltgotNoPic) (buf + 6) sym.got_addrv

/-- `write_addend(loc, val, rel)`: width-dispatched truncating store.
The `default: unreachable()` branch is modelled as `none`. -/
def write_addend (mem : Mem) (loc : Int) (val : Int) (rel : ElfRel) :
    Option Mem :=
  match rel.r_type with
  | .R_NONE => some mem
  | .R_386_8 | .R_386_PC8 => some (store8 mem loc val)
  | .R_386_16 | .R_386_PC16 => some (store16 mem loc val)
  | .R_386_32 | .R_386_PC32 | .R_386_GOT32 | .R_386_GOT32X | .R_386_PLT32
  | .R_386_GOTOFF | .R_386_GOTPC | .R_386_TLS_LDM | .R_386_TLS_GOTIE
  | .R_386_TLS_LE | .R_386_TLS_IE | .R_386_TLS_GD | .R_386_TLS_LDO_32
  | .R_386_SIZE32 | .R_386_TLS_GOTDESC => some (store32 mem loc val)
  | _ => none

/-- `relax_got32x(loc)`: return `0x8d00 | loc[1]` when `loc[0]` is the
`mov` opcode `0x8b`, otherwise `0`. -/
def relax_got32x (mem : Mem) (loc : Int) : Nat :=
  if mem loc = 0x8b then 0x8d00 ||| mem (loc + 1) else 0

/-- `EhFrameSection<E>::apply_reloc`: only `NONE`, `_32` and `PC32` are
supported in `.eh_frame`; anything else is `Fatal`. -/
def eh_apply_reloc (bufStart shdr_offset shdr_addr : Int) (rel : ElfRel)
    (offset val : Int) (mem : Mem) : Except String Mem :=
  let loc := bufStart + shdr_offset + offset
  match rel.r_type with
  | .R_NONE => .ok mem
  | .R_386_32 => .ok (store32 mem loc val)
  | .R_386_PC32 => .ok (store32 mem loc (val - shdr_addr - offset))
  | _ => .error "unsupported relocation in .eh_frame"

/-- Per-symbol requirement flags set by the scanner. -/
inductive Flag where
  | needs_got
  | needs_plt
  | needs_gottp
  | needs_tlsgd
  | needs_tlsdesc
  deriving DecidableEq, Repr

/-- Observable side effects of the scan pass: atomic flag ORs,
undefined-symbol errors, recorded (non-fatal) unknown-relocation
errors, and the context-wide TLS-LD need. -/
inductive ScanEff where
  | setFlag (symIdx : Nat) (f : Flag)
  | undefErr (i : Nat)
  | unknownErr (i : Nat)
  | needsTlsld
  deriving DecidableEq, Repr

/-- Inputs of `scan_relocations`: the context, the symbol table, the
section contents (addend bytes live there), and the external policy
routines (`scan_rel` tables and the TLS relax predicates), which the
embedding treats as arbitrary parameters. -/
structure ScanIn where
  ctx : Ctx
  syms : Nat → Symbol
  contents : Mem
  scan_absrel : ElfRel → List ScanEff
  scan_dyn_absrel : ElfRel → List ScanEff
  scan_pcrel : ElfRel → List ScanEff
  relax_tlsgd : Symbol → Bool
  relax_tlsld : Bool
  relax_tlsdesc : Symbol → Bool

/-- The switch body of `scan_relocations` for one relocation: returns
`Fatal` messages as `.error`, and otherwise the effects of the case
plus a flag saying whether the paired follower was consumed. -/
def scan_case (X : ScanIn) (rels : List ElfRel) (i : Nat) (sym : Symbol)
    (rel : ElfRel) : Except String (List ScanEff × Bool) :=
  match rel.r_type with
  | .R_NONE => .ok ([], false)
  | .R_386_8 | .R_386_16 => .ok (X.scan_absrel rel, false)
  | .R_386_32 => .ok (X.scan_dyn_absrel rel, false)
  | .R_386_PC8 | .R_386_PC16 | .R_386_PC32 => .ok (X.scan_pcrel rel, false)
  | .R_386_GOT32 | .R_386_GOTPC =>
      .ok ([.setFlag rel.r_sym .needs_got], false)
  | .R_386_GOT32X =>
      let do_relax := X.ctx.relax && !sym.is_imported && sym.is_relative &&
        decide (relax_got32x X.contents (rel.r_offset - 2) ≠ 0)
      .ok (if do_relax then [] else [.setFlag rel.r_sym .needs_got], false)
  | .R_386_PLT32 =>
      .ok (if sym.is_imported then [.setFlag rel.r_sym .needs_plt] else [],
           false)
  | .R_386_TLS_GOTIE | .R_386_TLS_LE | .R_386_TLS_IE =>
      .ok ([.setFlag rel.r_sym .needs_gottp], false)
  | .R_386_TLS_GD =>
      match rels.get? (i + 1) with
      | none => .error "TLS_GD reloc must be followed by PLT or GOT32"
      | some rel2 =>
        if rel2.r_type ≠ .R_386_PLT32 ∧ rel2.r_type ≠ .R_386_PC32 ∧
           rel2.r_type ≠ .R_386_GOT32 ∧ rel2.r_type ≠ .R_386_GOT32X then
          .error "TLS_GD reloc must be followed by PLT or GOT32"
        else if X.relax_tlsgd sym then .ok ([], true)
        else .ok ([.setFlag rel.r_sym .needs_tlsgd], false)
  | .R_386_TLS_LDM =>
      match rels.get? (i + 1) with
      | none => .error "TLS_LDM reloc must be followed by PLT or GOT32"
      | some rel2 =>
        if rel2.r_type ≠ .R_386_PLT32 ∧ rel2.r_type ≠ .R_386_PC32 ∧
           rel2.r_type ≠ .R_386_GOT32 ∧ rel2.r_type ≠ .R_386_GOT32X then
          .error "TLS_LDM reloc must be followed by PLT or GOT32"
        else if X.relax_tlsld then .ok ([], true)
        else .ok ([.needsTlsld], false)
  | .R_386_TLS_GOTDESC =>
      .ok (if X.relax_tlsdesc sym then []
           else [.setFlag rel.r_sym .needs_tlsdesc], false)
  | .R_386_GOTOFF | .R_386_TLS_LDO_32 | .R_386_SIZE32
  | .R_386_TLS_DESC_CALL => .ok ([], false)
  | .R_UNKNOWN _ => .ok ([.unknownErr i], false)

/-- One iteration of the scan loop at index `i`: skip `R_NONE`, record
an undefined-symbol error for file-less symbols, pre-set the ifunc
flags, then run the switch. -/
def scanStepAt (X : ScanIn) (rels : List ElfRel) (i : Nat) :
    Except String (List ScanEff × Bool) :=
  match rels.get? i with
  | none => .ok ([], false)
  | some rel =>
    if rel.r_type = .R_NONE then .ok ([], false)
    else
      let sym := X.syms rel.r_sym
      if sym.hasFile = false then .ok ([.undefErr i], false)
      else
        let pre : List ScanEff :=
          if sym.is_ifunc then
            [.setFlag rel.r_sym .needs_got, .setFlag rel.r_sym .needs_plt]
          else []
        match scan_case X rels i sym rel with
        | .error e => .error e
        | .ok (effs, b) => .ok (pre ++ effs, b)

/-- The scan loop from index `i`: a `Fatal` aborts the whole scan, and
a consumed follower advances the index by two. -/
def scanFrom (X : ScanIn) (rels : List ElfRel) (i : Nat) :
    Except String (List ScanEff) :=
  if _h : i < rels.length then
    match scanStepAt X rels i with
    | .error e => .error e
    | .ok (effs, b) =>
      match scanFrom X rels (i + (if b then 2 else 1)) with
      | .error e => .error e
      | .ok rest => .ok (effs ++ rest)
  else .ok []
termination_by rels.length - i
decreasing_by
  cases b <;> simp <;> omega

/-- `scan_relocations` over a whole section. -/
def scan_relocations (X : ScanIn) (rels : List ElfRel) :
    Except String (List ScanEff) :=
  scanFrom X rels 0

/-- Non-fatal errors recorded by the appliers. -/
inductive LinkErr where
  | range (val lo hi : Int)
  | undef (i : Nat)
  deriving DecidableEq, Repr

/-- The `check` lambda of the appliers: record a range error when the
value falls outside `[lo, hi)`, and carry on. -/
def checkRange (errs : List LinkErr) (val lo hi : Int) : List LinkErr :=
  if val < lo ∨ hi ≤ val then errs ++ [.range val lo hi] else errs

/-- Inputs of `apply_reloc_alloc`: context, the in-place addend reader
`get_addend`, the external `apply_dyn_absrel` helper (an arbitrary
memory transformer receiving sym, rel, loc, S, A, P), the symbol
table, the section's output address, and the output buffer base. -/
structure AllocIn where
  ctx : Ctx
  ga : ElfRel → Int
  dynAbs : Symbol → ElfRel → Int → Int → Int → Int → Mem → Mem
  syms : Nat → Symbol
  secAddr : Int
  base : Int

/-- The TLS_GD → LE replacement sequence `mov %gs:0,%eax; sub $0,%eax`. -/
def gdInsn : List Nat := [0x65, 0xa1, 0, 0, 0, 0, 0x81, 0xe8, 0, 0, 0, 0]

/-- The TLS_LDM → LE replacement sequence (PLT32/PC32 follower). -/
def ldInsnA : List Nat :=
  [0x31, 0xc0, 0x65, 0x8b, 0x00, 0x81, 0xe8, 0, 0, 0, 0]

/-- The TLS_LDM → LE replacement sequence plus trailing `nop`
(GOT32/GOT32X follower). -/
def ldInsnB : List Nat :=
  [0x31, 0xc0, 0x65, 0x8b, 0x00, 0x81, 0xe8, 0, 0, 0, 0, 0x90]

/-- The TLS_GOTDESC → LE replacement `lea 0, %eax`. -/
def descInsn : List Nat := [0x8d, 0x05, 0, 0, 0, 0]

/-- One iteration of the `apply_reloc_alloc` loop at index `i`:
returns the new memory, the error list, and whether the paired
follower was consumed; `unreachable()` and a failed `assert` are
modelled as `none`. -/
def applyStepAlloc (A : AllocIn) (rels : List ElfRel) (i : Nat) (mem : Mem)
    (errs : List LinkErr) : Option (Mem × List LinkErr × Bool) :=
  match rels.get? i with
  | none => none
  | some rel =>
    if rel.r_type = .R_NONE then some (mem, errs, false)
    else
      let sym := A.syms rel.r_sym
      let loc := A.base + rel.r_offset
      let S := sym.addr
      let Av := A.ga rel
      let P := A.secAddr + rel.r_offset
      let G := sym.got_idx * 4
      let GOT := A.ctx.got_addr
      match rel.r_type with
      | .R_386_8 =>
          let val := S + Av
          some (store8 mem loc val, checkRange errs val 0 (2 ^ 8), false)
      | .R_386_16 =>
          let val := S + Av
          some (store16 mem loc val, checkRange errs val 0 (2 ^ 16), false)
      | .R_386_32 =>
          some (A.dynAbs sym rel loc S Av P mem, errs, false)
      | .R_386_PC8 =>
          let val := S + Av - P
          some (store8 mem loc val,
                checkRange errs val (-(2 ^ 7)) (2 ^ 7), false)
      | .R_386_PC16 =>
          let val := S + Av - P
          some (store16 mem loc val,
                checkRange errs val (-(2 ^ 15)) (2 ^ 15), false)
      | .R_386_PC32 | .R_386_PLT32 =>
          some (store32 mem loc (S + Av - P), errs, false)
      | .R_386_GOT32 =>
          some (store32 mem loc (G + Av), errs, false)
      | .R_386_GOT32X =>
          if sym.has_got then some (store32 mem loc (G + Av), errs, false)
          else
            let insn := relax_got32x mem (loc - 2)
            if insn = 0 then none
            else
              let m1 := setByte mem (loc - 2) (insn >>> 8)
              let m2 := setByte m1 (loc - 1) insn
              some (store32 m2 loc (S + Av - GOT), errs, false)
      | .R_386_GOTOFF =>
          some (store32 mem loc (S + Av - GOT), errs, false)
      | .R_386_GOTPC =>
          some (store32 mem loc (GOT + Av - P), errs, false)
      | .R_386_TLS_GOTIE =>
          some (store32 mem loc (sym.gottp_addrv + Av - GOT), errs, false)
      | .R_386_TLS_LE =>
          some (store32 mem loc (S + Av - A.ctx.tp_addr), errs, false)
      | .R_386_TLS_IE =>
          some (store32 mem loc (sym.gottp_addrv + Av), errs, false)
      | .R_386_TLS_GD =>
          if sym.has_tlsgd then
            some (store32 mem loc (sym.tlsgd_addrv + Av - GOT), errs, false)
          else
            match rels.get? (i + 1) with
            | none => none
            | some rel2 =>
              match rel2.r_type with
              | .R_386_PLT32 | .R_386_PC32 =>
                  let m1 := memcpyB mem (loc - 3) gdInsn
                  some (store32 m1 (loc + 5) (A.ctx.tp_addr - S - Av),
                        errs, true)
              | .R_386_GOT32 | .R_386_GOT32X =>
                  let m1 := memcpyB mem (loc - 2) gdInsn
                  some (store32 m1 (loc + 6) (A.ctx.tp_addr - S - Av),
                        errs, true)
              | _ => none
      | .R_386_TLS_LDM =>
          if A.ctx.got_has_tlsld then
            some (store32 mem loc (A.ctx.tlsld_addr + Av - GOT), errs, false)
          else
            match rels.get? (i + 1) with
            | none => none
            | some rel2 =>
              match rel2.r_type with
              | .R_386_PLT32 | .R_386_PC32 =>
                  let m1 := memcpyB mem (loc - 2) ldInsnA
                  some (store32 m1 (loc + 5)
                          (A.ctx.tp_addr - A.ctx.tls_begin), errs, true)
              | .R_386_GOT32 | .R_386_GOT32X =>
                  let m1 := memcpyB mem (loc - 2) ldInsnB
                  some (store32 m1 (loc + 5)
                          (A.ctx.tp_addr - A.ctx.tls_begin), errs, true)
              | _ => none
      | .R_386_TLS_LDO_32 =>
          some (store32 mem loc (S + Av - A.ctx.tls_begin), errs, false)
      | .R_386_SIZE32 =>
          some (store32 mem loc (sym.st_size + Av), errs, false)
      | .R_386_TLS_GOTDESC =>
          if sym.has_tlsdesc then
            some (store32 mem loc (sym.tlsdesc_addrv + Av - GOT), errs, false)
          else
            let m1 := memcpyB mem (loc - 2) descInsn
            some (store32 m1 loc (S + Av - A.ctx.tp_addr), errs, false)
      | .R_386_TLS_DESC_CALL =>
          if sym.has_tlsdesc then some (mem, errs, false)
          else some (setByte (setByte mem loc 0x66) (loc + 1) 0x90,
                     errs, false)
      | _ => none

/-- The `apply_reloc_alloc` loop from index `i`. -/
def applyAllocFrom (A : AllocIn) (rels : List ElfRel) (i : Nat) (mem : Mem)
    (errs : List LinkErr) : Option (Mem × List LinkErr) :=
  if _h : i < rels.length then
    match applyStepAlloc A rels i mem errs with
    | none => none
    | some (m, e, b) => applyAllocFrom A rels (i + (if b then 2 else 1)) m e
  else some (mem, errs)
termination_by rels.length - i
decreasing_by
  cases b <;> simp <;> omega

/-- Inputs of `apply_reloc_nonalloc`: context, addend reader, fragment
lookup `get_fragment` and tombstone policy `get_tombstone` (arbitrary
external functions), symbol table and buffer base. -/
structure NonallocIn where
  ctx : Ctx
  ga : ElfRel → Int
  frag : ElfRel → Option (Int × Int)
  tomb : Symbol → Option (Int × Int) → Option Int
  syms : Nat → Symbol
  base : Int

/-- One iteration of the `apply_reloc_nonalloc` loop at index `i`;
`unreachable()` is modelled as `none`. -/
def applyNonallocStep (N : NonallocIn) (rels : List ElfRel) (i : Nat)
    (mem : Mem) (errs : List LinkErr) : Option (Mem × List LinkErr) :=
  match rels.get? i with
  | none => none
  | some rel =>
    if rel.r_type = .R_NONE then some (mem, errs)
    else
      let sym := N.syms rel.r_sym
      let loc := N.base + rel.r_offset
      if sym.hasFile = false then some (mem, errs ++ [.undef i])
      else
        let fr := N.frag rel
        let S := match fr with | some (fa, _) => fa | none => sym.addr
        let Av := match fr with | some (_, ad) => ad | none => N.ga rel
        let GOT := N.ctx.got_addr
        match rel.r_type with
        | .R_386_8 =>
            let val := S + Av
            some (store8 mem loc val, checkRange errs val 0 (2 ^ 8))
        | .R_386_16 =>
            let val := S + Av
            some (store16 mem loc val, checkRange errs val 0 (2 ^ 16))
        | .R_386_32 =>
            match N.tomb sym fr with
            | some v => some (store32 mem loc v, errs)
            | none => some (store32 mem loc (S + Av), errs)
        | .R_386_PC8 =>
            let val := S + Av
            some (store8 mem loc val, checkRange errs val (-(2 ^ 7)) (2 ^ 7))
        | .R_386_PC16 =>
            let val := S + Av
            some (store16 mem loc val,
                  checkRange errs val (-(2 ^ 15)) (2 ^ 15))
        | .R_386_PC32 =>
            some (store32 mem loc (S + Av), errs)
        | .R_386_GOTPC =>
            some (store32 mem loc (GOT + Av), errs)
        | .R_386_GOTOFF =>
            some (store32 mem loc (S + Av - GOT), errs)
        | .R_386_TLS_LDO_32 =>
            match N.tomb sym fr with
            | some v => some (store32 mem loc v, errs)
            | none => some (store32 mem loc (S + Av - N.ctx.tls_begin), errs)
        | .R_386_SIZE32 =>
            some (store32 mem loc (sym.st_size + Av), errs)
        | _ => none

/-- The `apply_reloc_nonalloc` loop from index `i`. -/
def applyNonallocFrom (N : NonallocIn) (rels : List ElfRel) (i : Nat)
    (mem : Mem) (errs : List LinkErr) : Option (Mem × List LinkErr) :=
  if _h : i < rels.length then
    match applyNonallocStep N rels i mem errs with
    | none => none
    | some (m, e) => applyNonallocFrom N rels (i + 1) m e
  else some (mem, errs)
termination_by rels.length - i

/-- Field width table of the i386 relocation set: `NONE` writes
nothing, `_8`/`PC8` one byte, `_16`/`PC16` two bytes, and every
32-bit type (including the TLS and GOT families) four bytes;
`TLS_DESC_CALL` and unknown types carry no addend field. -/
def fieldWidth : RType → Option Nat
  | .R_NONE => some 0
  | .R_386_8 | .R_386_PC8 => some 1
  | .R_386_16 | .R_386_PC16 => some 2
  | .R_386_32 | .R_386_PC32 | .R_386_GOT32 | .R_386_GOT32X | .R_386_PLT32
  | .R_386_GOTOFF | .R_386_GOTPC | .R_386_TLS_LDM | .R_386_TLS_GOTIE
  | .R_386_TLS_LE | .R_386_TLS_IE | .R_386_TLS_GD | .R_386_TLS_LDO_32
  | .R_386_SIZE32 | .R_386_TLS_GOTDESC => some 4
  | _ => none

/-- A buffer writer emits exactly the 16 bytes `[buf, buf+16)`: bytes
outside are untouched, bytes inside do not depend on the previous
buffer contents, and the first four bytes are the `endbr32` opcode
`f3 0f 1e fb`. -/
def emits16 (w : Mem → Mem) (buf : Int) : Prop :=
  (∀ mem a, a < buf ∨ buf + 16 ≤ a → w mem a = mem a) ∧
  (∀ m1 m2 a, buf ≤ a → a < buf + 16 → w m1 a = w m2 a) ∧
  (∀ mem, w mem buf = 0xf3 ∧ w mem (buf + 1) = 0x0f ∧
          w mem (buf + 2) = 0x1e ∧ w mem (buf + 3) = 0xfb)

/-- All-zero memory, used by concrete witnesses. -/
def mem0 : Mem := fun _ => 0

/-- A concrete PIC context for witnesses. -/
def ctx0 : Ctx := ⟨true, true, 0x3000, 0x3100, 0x1000, 0x900, false, 0⟩

/-- A concrete defined symbol for witnesses. -/
def sym0 : Symbol :=
  ⟨0x20, 2, 0x3118, 0x3008, 0, 0, 0, 3, 0, true, false, false, false,
   true, false, true⟩

/-- A concrete local symbol at `0x80480C0` for the PC32 scenario. -/
def symC3 : Symbol :=
  ⟨0x80480C0, 0, 0, 0, 0, 0, 0, 0, 0, false, false, false, false,
   true, false, true⟩

/-- Concrete allocatable-applier inputs: section at `0x8048000`,
in-place addend `-4`. -/
def A3 : AllocIn :=
  ⟨ctx0, fun _ => -4, fun _ _ _ _ _ _ m => m, fun _ => symC3,
   0x8048000, 0x8048000⟩

/-- One PC32 relocation at offset `0x40`. -/
def rels3 : List ElfRel := [⟨64, .R_386_PC32, 0⟩]

/-- A concrete non-imported relative symbol for scan witnesses. -/
def symRel : Symbol :=
  ⟨0, 0, 0, 0, 0, 0, 0, 0, 0, false, false, false, false, true, false, true⟩

/-- Concrete scan inputs whose section contents are all `0x8b`. -/
def X4 : ScanIn :=
  ⟨ctx0, fun _ => symRel, fun _ => 0x8b, fun _ => [], fun _ => [],
   fun _ => [], fun _ => false, false, fun _ => false⟩

/-- A concrete TLS symbol at `0x20` with no TLS-GD slot. -/
def symGD : Symbol :=
  ⟨0x20, 0, 0, 0, 0, 0, 0, 0, 0, false, false, false, false,
   true, false, true⟩

/-- A context with `tp_addr = 0x1000` for the TLS_GD scenario. -/
def ctxGD : Ctx := ⟨false, true, 0, 0, 0x1000, 0, false, 0⟩

/-- Allocatable-applier inputs for the TLS_GD scenario (addend 0,
buffer base 100). -/
def A5 : AllocIn :=
  ⟨ctxGD, fun _ => 0, fun _ _ _ _ _ _ m => m, fun _ => symGD, 0, 100⟩

/-- A TLS_GD relocation at offset 50 paired with a PLT32 follower. -/
def rels5 : List ElfRel :=
  [⟨50, .R_386_TLS_GD, 0⟩, ⟨54, .R_386_PLT32, 0⟩]

/-- A context whose `.got` is at 5, for the GOTPC comparison. -/
def ctx6 : Ctx := ⟨false, true, 5, 0, 0, 0, false, 0⟩

/-- Allocatable inputs with section address 7 and buffer base 0. -/
def A6 : AllocIn :=
  ⟨ctx6, fun _ => 0, fun _ _ _ _ _ _ m => m, fun _ => symRel, 7, 0⟩

/-- Non-allocatable inputs sharing `A6`'s context and symbol table. -/
def N6 : NonallocIn :=
  ⟨ctx6, fun _ => 0, fun _ => none, fun _ _ => none, fun _ => symRel, 0⟩

/-- One GOTPC relocation at offset 0. -/
def rels6 : List ElfRel := [⟨0, .R_386_GOTPC, 0⟩]

/-- One GOTOFF relocation at offset 0. -/
def relsOFF : List ElfRel := [⟨0, .R_386_GOTOFF, 0⟩]

/-- The narrow relocation types with their field width and permitted
range: `[0, 2^W)` for the absolute forms, `[-2^(W-1), 2^(W-1))` for
the PC-relative forms. -/
def narrowRange : RType → Option (Nat × Int × Int)
  | .R_386_8 => some (1, 0, (2 : Int) ^ 8)
  | .R_386_16 => some (2, 0, (2 : Int) ^ 16)
  | .R_386_PC8 => some (1, -((2 : Int) ^ 7), (2 : Int) ^ 7)
  | .R_386_PC16 => some (2, -((2 : Int) ^ 15), (2 : Int) ^ 15)
  | _ => none

/-- Whether a narrow type is PC-relative. -/
def isPCnarrow : RType → Bool
  | .R_386_PC8 | .R_386_PC16 => true
  | _ => false

/-- A symbol whose address is 256, so `S + A` overflows an 8-bit
field. -/
def sym256 : Symbol :=
  ⟨256, 0, 0, 0, 0, 0, 0, 0, 0, false, false, false, false,
   true, false, true⟩

/-- Allocatable inputs for the 8-bit range-check scenario. -/
def A9 : AllocIn :=
  ⟨ctx0, fun _ => 0, fun _ _ _ _ _ _ m => m, fun _ => sym256, 0, 0⟩

/-- Non-allocatable inputs for the 8-bit range-check scenario. -/
def N9 : NonallocIn :=
  ⟨ctx0, fun _ => 0, fun _ => none, fun _ _ => none, fun _ => sym256, 0⟩

/-- One `_8` relocation at offset 0. -/
def rels9 : List ElfRel := [⟨0, .R_386_8, 0⟩]

/-- Scan inputs with empty policy tables, for unknown-type scans. -/
def Xu : ScanIn :=
  ⟨ctx0, fun _ => symRel, fun _ => 0, fun _ => [], fun _ => [],
   fun _ => [], fun _ => false, false, fun _ => false⟩

/-- One relocation of an unknown type value. -/
def relsU : List ElfRel := [⟨0, .R_UNKNOWN 40, 0⟩]

/-- Memory whose every byte is the `mov` opcode `0x8b`. -/
def mem8b : Mem := fun _ => 0x8b

/-- Allocatable inputs matching `X4`'s symbol table, for the GOT32X
assert scenario. -/
def A10 : AllocIn :=
  ⟨ctx0, fun _ => 0, fun _ _ _ _ _ _ m => m, fun _ => symRel, 0, 0⟩

/-- One GOT32X relocation at offset 0. -/
def rels10 : List ElfRel := [⟨0, .R_386_GOT32X, 0⟩]

/-- A TLS_GD relocation with a valid GOT32 follower. -/
def rels7 : List ElfRel :=
  [⟨0, .R_386_TLS_GD, 0⟩, ⟨4, .R_386_GOT32, 0⟩]

/-! Helper lemmas about the byte-level store primitives. -/

theorem storeN_in (w : Nat) (mem : Mem) (loc v a : Int)
    (h1 : loc ≤ a) (h2 : a < loc + (w : Int)) :
    storeN w mem loc v a =
      ((v % ((2 : Int) ^ (8 * w))).toNat / 256 ^ (a - loc).toNat) % 256 := by
  unfold storeN
  rw [if_pos ⟨h1, h2⟩]

theorem storeN_out (w : Nat) (mem : Mem) (loc v a : Int)
    (h : a < loc ∨ loc + (w : Int) ≤ a) :
    storeN w mem loc v a = mem a := by
  unfold storeN
  rw [if_neg (by omega)]

theorem memcpyB_in (mem : Mem) (loc : Int) (bs : List Nat) (a : Int)
    (h1 : loc ≤ a) (h2 : a < loc + (bs.length : Int)) :
    memcpyB mem loc bs a = bs.getD (a - loc).toNat 0 := by
  unfold memcpyB
  rw [if_pos ⟨h1, h2⟩]

theorem memcpyB_out (mem : Mem) (loc : Int) (bs : List Nat) (a : Int)
    (h : a < loc ∨ loc + (bs.length : Int) ≤ a) :
    memcpyB mem loc bs a = mem a := by
  unfold memcpyB
  rw [if_neg (by omega)]

theorem relax_got32x_ne_zero_iff (mem : Mem) (loc : Int) :
    relax_got32x mem loc ≠ 0 ↔ mem loc = 0x8b := by
  unfold relax_got32x
  by_cases h : mem loc = 0x8b
  · rw [if_pos h]
    refine ⟨fun _ => h, fun _ hz => ?_⟩
    have h8 : ((0x8d00 : Nat) ||| mem (loc + 1)).testBit 8 = Nat.testBit 0 8 :=
      congrArg (fun n => Nat.testBit n 8) hz
    rw [Nat.testBit_lor] at h8
    simp at h8
    exact absurd h8.1 (by decide)
  · rw [if_neg h]
    simp [h]

theorem store32_bytes (mem : Mem) (loc v : Int) :
    store32 mem loc v loc + 256 * store32 mem loc v (loc + 1) +
      65536 * store32 mem loc v (loc + 2) +
      16777216 * store32 mem loc v (loc + 3) =
      (v % ((2 : Int) ^ 32)).toNat := by
  have h0 := storeN_in 4 mem loc v loc (le_refl loc) (by omega)
  have h1 := storeN_in 4 mem loc v (loc + 1) (by omega) (by omega)
  have h2 := storeN_in 4 mem loc v (loc + 2) (by omega) (by omega)
  have h3 := storeN_in 4 mem loc v (loc + 3) (by omega) (by omega)
  rw [show ((loc : Int) - loc).toNat = 0 by omega] at h0
  rw [show ((loc + 1 : Int) - loc).toNat = 1 by omega] at h1
  rw [show ((loc + 2 : Int) - loc).toNat = 2 by omega] at h2
  rw [show ((loc + 3 : Int) - loc).toNat = 3 by omega] at h3
  simp only [store32]
  rw [h0, h1, h2, h3]
  have epow : ((2 : Int) ^ (8 * 4)) = (2 : Int) ^ 32 := by norm_num
  rw [epow]
  have hb : 0 ≤ v % ((2 : Int) ^ 32) := Int.emod_nonneg v (by norm_num)
  have hlt : v % ((2 : Int) ^ 32) < ((2 : Int) ^ 32) :=
    Int.emod_lt_of_pos v (by norm_num)
  have e : ((2 : Int) ^ 32) = 4294967296 := by norm_num
  rw [e] at hb hlt ⊢
  norm_num
  omega

/-- C2: `write_addend(loc, val, rel)` is a no-op for `NONE`, writes
exactly 1 byte for `_8`/`PC8`, 2 bytes little-endian for `_16`/`PC16`,
and 4 bytes little-endian for every 32-bit relocation type including
the TLS and GOT families, truncating `val` modulo `2^(8W)`; no byte
outside the `W`-byte field is modified. -/
theorem write_addend_widths (mem : Mem) (loc val : Int) (r : ElfRel) (w : Nat)
    (hw : fieldWidth r.r_type = some w) :
    ∃ m, write_addend mem loc val r = some m ∧
      (∀ a : Int, loc ≤ a → a < loc + (w : Int) →
        m a = ((val % ((2 : Int) ^ (8 * w))).toNat / 256 ^ (a - loc).toNat)
          % 256) ∧
      (∀ a : Int, a < loc ∨ loc + (w : Int) ≤ a → m a = mem a) := by
  obtain ⟨off, ty, si⟩ := r
  simp only at hw
  cases ty <;> simp only [fieldWidth] at hw
  case R_UNKNOWN n => exact Option.noConfusion hw
  case R_386_TLS_DESC_CALL => exact Option.noConfusion hw
  all_goals (injection hw with hww; subst hww)
  case R_NONE =>
    exact ⟨mem, rfl, fun a ha1 ha2 => absurd ha2 (by omega), fun a _ => rfl⟩
  all_goals first
  | exact ⟨storeN 1 mem loc val, rfl,
      fun a h1 h2 => storeN_in 1 mem loc val a h1 h2,
      fun a h => storeN_out 1 mem loc val a h⟩
  | exact ⟨storeN 2 mem loc val, rfl,
      fun a h1 h2 => storeN_in 2 mem loc val a h1 h2,
      fun a h => storeN_out 2 mem loc val a h⟩
  | exact ⟨storeN 4 mem loc val, rfl,
      fun a h1 h2 => storeN_in 4 mem loc val a h1 h2,
      fun a h => storeN_out 4 mem loc val a h⟩

/-- Witness for C2: a 16-bit store of `0x1234` at 10 leaves bytes
`0x34 0x12` there and bytes 9 and 12 untouched. -/
theorem write_addend_widths_witness :
    ∃ m, write_addend mem0 10 4660 ⟨10, .R_386_16, 0⟩ = some m ∧
      m 10 = 52 ∧ m 11 = 18 ∧ m 9 = 0 ∧ m 12 = 0 := by
  obtain ⟨m, hm, hin, hout⟩ :=
    write_addend_widths mem0 10 4660 ⟨10, .R_386_16, 0⟩ 2 rfl
  refine ⟨m, hm, ?_, ?_, ?_, ?_⟩
  · rw [hin 10 (by omega) (by omega)]; decide
  · rw [hin 11 (by omega) (by omega)]; decide
  · rw [hout 9 (Or.inl (by omega))]; rfl
  · rw [hout 12 (Or.inr (by omega))]; rfl

theorem emits16_copy_store (L : List Nat) (buf d v : Int)
    (hL : (L.length : Int) = 16) (hd1 : 4 ≤ d) (hd2 : d + 4 ≤ 16)
    (hp0 : L.getD 0 0 = 0xf3) (hp1 : L.getD 1 0 = 0x0f)
    (hp2 : L.getD 2 0 = 0x1e) (hp3 : L.getD 3 0 = 0xfb) :
    emits16 (fun mem => store32 (memcpyB mem buf L) (buf + d) v) buf := by
  refine ⟨?_, ?_, ?_⟩
  · intro mem a ha
    simp only [store32]
    rw [storeN_out 4 _ _ _ _ (by omega), memcpyB_out _ _ _ _ (by omega)]
  · intro m1 m2 a h1 h2
    simp only [store32]
    by_cases hc : buf + d ≤ a ∧ a < buf + d + 4
    · rw [storeN_in 4 _ _ _ _ hc.1 (by omega),
          storeN_in 4 _ _ _ _ hc.1 (by omega)]
    · rw [storeN_out 4 _ _ _ _ (by omega), storeN_out 4 _ _ _ _ (by omega),
          memcpyB_in _ _ _ _ h1 (by omega), memcpyB_in _ _ _ _ h1 (by omega)]
  · intro mem
    refine ⟨?_, ?_, ?_, ?_⟩
    · simp only [store32]
      rw [storeN_out 4 _ _ _ _ (by omega),
          memcpyB_in _ _ _ _ (by omega) (by omega),
          show ((buf : Int) - buf).toNat = 0 by omega]
      exact hp0
    · simp only [store32]
      rw [storeN_out 4 _ _ _ _ (by omega),
          memcpyB_in _ _ _ _ (by omega) (by omega),
          show ((buf + 1 : Int) - buf).toNat = 1 by omega]
      exact hp1
    · simp only [store32]
      rw [storeN_out 4 _ _ _ _ (by omega),
          memcpyB_in _ _ _ _ (by omega) (by omega),
          show ((buf + 2 : Int) - buf).toNat = 2 by omega]
      exact hp2
    · simp only [store32]
      rw [storeN_out 4 _ _ _ _ (by omega),
          memcpyB_in _ _ _ _ (by omega) (by omega),
          show ((buf + 3 : Int) - buf).toNat = 3 by omega]
      exact hp3

theorem emits16_store_more (w : Mem → Mem) (buf d v : Int)
    (hw : emits16 w buf) (hd1 : 4 ≤ d) (hd2 : d + 4 ≤ 16) :
    emits16 (fun mem => store32 (w mem) (buf + d) v) buf := by
  obtain ⟨hfr, hind, hpre⟩ := hw
  refine ⟨?_, ?_, ?_⟩
  · intro mem a ha
    simp only [store32]
    rw [storeN_out 4 _ _ _ _ (by omega)]
    exact hfr mem a ha
  · intro m1 m2 a h1 h2
    simp only [store32]
    by_cases hc : buf + d ≤ a ∧ a < buf + d + 4
    · rw [storeN_in 4 _ _ _ _ hc.1 (by omega),
          storeN_in 4 _ _ _ _ hc.1 (by omega)]
    · rw [storeN_out 4 _ _ _ _ (by omega), storeN_out 4 _ _ _ _ (by omega)]
      exact hind m1 m2 a h1 h2
  · intro mem
    obtain ⟨p0, p1, p2, p3⟩ := hpre mem
    refine ⟨?_, ?_, ?_, ?_⟩
    · simp only [store32]; rw [storeN_out 4 _ _ _ _ (by omega)]; exact p0
    · simp only [store32]; rw [storeN_out 4 _ _ _ _ (by omega)]; exact p1
    · simp only [store32]; rw [storeN_out 4 _ _ _ _ (by omega)]; exact p2
    · simp only [store32]; rw [storeN_out 4 _ _ _ _ (by omega)]; exact p3

/-- C1: for every PIC/non-PIC combination of PLT header, per-symbol
PLT entry, and pltgot entry, the emitted byte sequence is exactly 16
bytes long and begins with the `endbr32` prefix `f3 0f 1e fb`. -/
theorem plt_writers_emit16 (ctx : Ctx) (buf : Int) (sym : Symbol) :
    emits16 (write_plt_header ctx buf) buf ∧
    emits16 (write_plt_entry ctx buf sym) buf ∧
    emits16 (write_pltgot_entry ctx buf sym) buf := by
  obtain ⟨pic, rlx, got, gotplt, tp, tlsb, htl, tla⟩ := ctx
  cases pic
  · refine ⟨?_, ?_, ?_⟩
    · exact emits16_copy_store pltHdrNoPic buf 6 _ (by decide) (by norm_num)
        (by norm_num) rfl rfl rfl rfl
    · exact emits16_store_more _ buf 5 _
        (emits16_copy_store pltEntNoPic buf 11 _ (by decide) (by norm_num)
          (by norm_num) rfl rfl rfl rfl) (by norm_num) (by norm_num)
    · exact emits16_copy_store pltgotNoPic buf 6 _ (by decide) (by norm_num)
        (by norm_num) rfl rfl rfl rfl
  · refine ⟨?_, ?_, ?_⟩
    · exact emits16_copy_store pltHdrPic buf 7 _ (by decide) (by norm_num)
        (by norm_num) rfl rfl rfl rfl
    · exact emits16_store_more _ buf 5 _
        (emits16_copy_store pltEntPic buf 11 _ (by decide) (by norm_num)
          (by norm_num) rfl rfl rfl rfl) (by norm_num) (by norm_num)
    · exact emits16_copy_store pltgotPic buf 6 _ (by decide) (by norm_num)
        (by norm_num) rfl rfl rfl rfl

/-- Witness for C1: the pltgot writer puts `0xf3` at offset 0 and the
PLT entry writer leaves byte 20 untouched. -/
theorem plt_writers_emit16_witness :
    write_pltgot_entry ctx0 0 sym0 mem0 0 = 0xf3 ∧
    write_plt_entry ctx0 0 sym0 mem0 20 = mem0 20 :=
  ⟨((plt_writers_emit16 ctx0 0 sym0).2.2.2.2 mem0).1,
   (plt_writers_emit16 ctx0 0 sym0).2.1.1 mem0 20 (by omega)⟩

/-- C3: in the allocatable applier, every PC32 and PLT32 relocation
stores the 4 bytes of `S + A - P` in two's-complement modulo `2^32`
little-endian at the site, and modifies nothing else. -/
theorem pc32_plt32_value (A : AllocIn) (rels : List ElfRel) (i : Nat)
    (off : Int) (si : Nat) (mem : Mem) (errs : List LinkErr) (ty : RType)
    (hget : rels.get? i = some ⟨off, ty, si⟩)
    (hty : ty = .R_386_PC32 ∨ ty = .R_386_PLT32) :
    ∃ m, applyStepAlloc A rels i mem errs = some (m, errs, false) ∧
      (m (A.base + off) + 256 * m (A.base + off + 1) +
        65536 * m (A.base + off + 2) + 16777216 * m (A.base + off + 3) =
        (((A.syms si).addr + A.ga ⟨off, ty, si⟩ - (A.secAddr + off)) %
          ((2 : Int) ^ 32)).toNat) ∧
      (∀ a : Int, a < A.base + off ∨ A.base + off + 4 ≤ a → m a = mem a) := by
  rcases hty with h | h <;> subst h <;>
  · refine ⟨_, ?_, store32_bytes mem _ _,
      fun a ha => storeN_out 4 mem _ _ a (by omega)⟩
    simp only [applyStepAlloc, hget]
    rfl

/-- Witness for C3, the spec scenario: section base `0x8048000`,
relocation offset `0x40`, symbol at `0x80480C0`, addend `-4`; the
stored little-endian value is `0x7c`. -/
theorem pc32_plt32_value_witness :
    ∃ m, applyStepAlloc A3 rels3 0 mem0 [] = some (m, [], false) ∧
      m (A3.base + 64) + 256 * m (A3.base + 64 + 1) +
        65536 * m (A3.base + 64 + 2) + 16777216 * m (A3.base + 64 + 3) =
        124 := by
  obtain ⟨m, hm, hsum, -⟩ :=
    pc32_plt32_value A3 rels3 0 64 0 mem0 [] .R_386_PC32 rfl (Or.inl rfl)
  exact ⟨m, hm, by rw [hsum]; decide⟩

/-- C4: during scan, a GOT32X relocation sets `NEEDS_GOT` on the
symbol iff the relaxation does not apply, where it applies exactly
when relax is enabled, the symbol is not imported, the symbol is
relative, and the byte at `loc-2` is `0x8b`; when it applies, no GOT
slot is requested. -/
theorem scan_got32x_needs_got_iff (X : ScanIn) (rels : List ElfRel) (i : Nat)
    (sym : Symbol) (off : Int) (si : Nat) :
    ∃ effs,
      scan_case X rels i sym ⟨off, .R_386_GOT32X, si⟩ = .ok (effs, false) ∧
      ((ScanEff.setFlag si .needs_got ∈ effs) ↔
        ¬(X.ctx.relax = true ∧ sym.is_imported = false ∧
          sym.is_relative = true ∧ X.contents (off - 2) = 0x8b)) ∧
      ((X.ctx.relax = true ∧ sym.is_imported = false ∧
        sym.is_relative = true ∧ X.contents (off - 2) = 0x8b) →
        effs = []) := by
  have hbool : (X.ctx.relax && !sym.is_imported && sym.is_relative &&
      decide (relax_got32x X.contents (off - 2) ≠ 0)) = true ↔
      (X.ctx.relax = true ∧ sym.is_imported = false ∧
        sym.is_relative = true ∧ X.contents (off - 2) = 0x8b) := by
    simp [Bool.and_eq_true, Bool.not_eq_true', relax_got32x_ne_zero_iff,
      and_assoc]
  simp only [scan_case]
  refine ⟨_, rfl, ?_, ?_⟩
  · by_cases hb : (X.ctx.relax && !sym.is_imported && sym.is_relative &&
        decide (relax_got32x X.contents (off - 2) ≠ 0)) = true
    · rw [if_pos hb]
      simp [hbool.mp hb]
    · rw [if_neg hb]
      have hP := fun hp => hb (hbool.mpr hp)
      exact iff_of_true (List.mem_singleton_self _) hP
  · intro hp
    rw [if_pos (hbool.mpr hp)]

/-- Witness for C4: with relax on, a local relative symbol and a
`0x8b` prefix byte, the GOT32X case requests nothing. -/
theorem scan_got32x_witness :
    ∃ effs,
      scan_case X4 [] 0 symRel ⟨0, .R_386_GOT32X, 0⟩ = .ok (effs, false) ∧
      effs = [] := by
  obtain ⟨effs, h1, -, h3⟩ := scan_got32x_needs_got_iff X4 [] 0 symRel 0 0
  exact ⟨effs, h1, h3 ⟨rfl, rfl, rfl, rfl⟩⟩

/-- C5: relaxing TLS_GD to Local-Exec when the symbol has no TLS-GD
slot: with a PLT32/PC32 follower, exactly the 12 bytes starting at
`loc-3` are overwritten with `mov %gs:0,%eax; sub $val,%eax` and the
immediate `tp_addr - S - A` sits at `loc+5`; with a GOT32/GOT32X
follower the same sequence starts at `loc-2` and the immediate sits
at `loc+6`; in both cases the loop consumes the follower,
advancing by two. -/
theorem tlsgd_relax_rewrite (A : AllocIn) (rels : List ElfRel) (i : Nat)
    (off : Int) (si : Nat) (off2 : Int) (ty2 : RType) (si2 : Nat)
    (mem : Mem) (errs : List LinkErr)
    (hget : rels.get? i = some ⟨off, .R_386_TLS_GD, si⟩)
    (hgd : (A.syms si).has_tlsgd = false)
    (hget2 : rels.get? (i + 1) = some ⟨off2, ty2, si2⟩) :
    ((ty2 = .R_386_PLT32 ∨ ty2 = .R_386_PC32) →
      ∃ m, applyStepAlloc A rels i mem errs = some (m, errs, true) ∧
        (∀ k : Nat, k < 8 →
          m (A.base + off - 3 + (k : Int)) = gdInsn.getD k 0) ∧
        (∀ k : Nat, k < 4 →
          m (A.base + off + 5 + (k : Int)) =
            (((A.ctx.tp_addr - (A.syms si).addr -
              A.ga ⟨off, .R_386_TLS_GD, si⟩) % ((2 : Int) ^ 32)).toNat /
              256 ^ k) % 256) ∧
        (∀ a : Int, a < A.base + off - 3 ∨ A.base + off + 9 ≤ a →
          m a = mem a)) ∧
    ((ty2 = .R_386_GOT32 ∨ ty2 = .R_386_GOT32X) →
      ∃ m, applyStepAlloc A rels i mem errs = some (m, errs, true) ∧
        (∀ k : Nat, k < 8 →
          m (A.base + off - 2 + (k : Int)) = gdInsn.getD k 0) ∧
        (∀ k : Nat, k < 4 →
          m (A.base + off + 6 + (k : Int)) =
            (((A.ctx.tp_addr - (A.syms si).addr -
              A.ga ⟨off, .R_386_TLS_GD, si⟩) % ((2 : Int) ^ 32)).toNat /
              256 ^ k) % 256) ∧
        (∀ a : Int, a < A.base + off - 2 ∨ A.base + off + 10 ≤ a →
          m a = mem a)) ∧
    (∀ m e b, applyStepAlloc A rels i mem errs = some (m, e, b) → b = true →
      applyAllocFrom A rels i mem errs = applyAllocFrom A rels (i + 2) m e) := by
  have hlen : (gdInsn.length : Int) = 12 := by decide
  refine ⟨?_, ?_, ?_⟩
  · intro h2
    have hstep : applyStepAlloc A rels i mem errs =
        some (store32 (memcpyB mem (A.base + off - 3) gdInsn)
          (A.base + off + 5)
          (A.ctx.tp_addr - (A.syms si).addr -
            A.ga ⟨off, .R_386_TLS_GD, si⟩), errs, true) := by
      rcases h2 with h | h <;> subst h <;>
        (simp only [applyStepAlloc, hget, hget2, hgd]; rfl)
    refine ⟨_, hstep, ?_, ?_, ?_⟩
    · intro k hk
      simp only [store32]
      rw [storeN_out 4 (memcpyB mem (A.base + off - 3) gdInsn)
            (A.base + off + 5) _ (A.base + off - 3 + (k : Int)) (by omega),
          memcpyB_in mem (A.base + off - 3) gdInsn
            (A.base + off - 3 + (k : Int)) (by omega) (by omega),
          show ((A.base + off - 3 + (k : Int)) - (A.base + off - 3)).toNat = k
            from by omega]
    · intro k hk
      simp only [store32]
      rw [storeN_in 4 (memcpyB mem (A.base + off - 3) gdInsn)
            (A.base + off + 5) _ (A.base + off + 5 + (k : Int))
            (by omega) (by omega),
          show ((A.base + off + 5 + (k : Int)) - (A.base + off + 5)).toNat = k
            from by omega,
          show ((2 : Int) ^ (8 * 4)) = (2 : Int) ^ 32 from by norm_num]
    · intro a ha
      simp only [store32]
      rw [storeN_out 4 (memcpyB mem (A.base + off - 3) gdInsn)
            (A.base + off + 5) _ a (by omega),
          memcpyB_out mem (A.base + off - 3) gdInsn a (by omega)]
  · intro h2
    have hstep : applyStepAlloc A rels i mem errs =
        some (store32 (memcpyB mem (A.base + off - 2) gdInsn)
          (A.base + off + 6)
          (A.ctx.tp_addr - (A.syms si).addr -
            A.ga ⟨off, .R_386_TLS_GD, si⟩), errs, true) := by
      rcases h2 with h | h <;> subst h <;>
        (simp only [applyStepAlloc, hget, hget2, hgd]; rfl)
    refine ⟨_, hstep, ?_, ?_, ?_⟩
    · intro k hk
      simp only [store32]
      rw [storeN_out 4 (memcpyB mem (A.base + off - 2) gdInsn)
            (A.base + off + 6) _ (A.base + off - 2 + (k : Int)) (by omega),
          memcpyB_in mem (A.base + off - 2) gdInsn
            (A.base + off - 2 + (k : Int)) (by omega) (by omega),
          show ((A.base + off - 2 + (k : Int)) - (A.base + off - 2)).toNat = k
            from by omega]
    · intro k hk
      simp only [store32]
      rw [storeN_in 4 (memcpyB mem (A.base + off - 2) gdInsn)
            (A.base + off + 6) _ (A.base + off + 6 + (k : Int))
            (by omega) (by omega),
          show ((A.base + off + 6 + (k : Int)) - (A.base + off + 6)).toNat = k
            from by omega,
          show ((2 : Int) ^ (8 * 4)) = (2 : Int) ^ 32 from by norm_num]
    · intro a ha
      simp only [store32]
      rw [storeN_out 4 (memcpyB mem (A.base + off - 2) gdInsn)
            (A.base + off + 6) _ a (by omega),
          memcpyB_out mem (A.base + off - 2) gdInsn a (by omega)]
  · intro m e b hstep hb
    subst hb
    have hilen : i < rels.length := by
      by_contra hle
      rw [List.get?_eq_none.mpr (by omega)] at hget
      exact Option.noConfusion hget
    conv_lhs => rw [applyAllocFrom]
    rw [dif_pos hilen, hstep]
    rfl

/-- Witness for C5, the spec scenario: `tp_addr = 0x1000`, `S = 0x20`,
`A = 0`, PLT32 follower; bytes `65 a1 .. 81 e8` appear at `loc-3` and
the immediate `0x0fe0` at `loc+5`, and the loop advances by two. -/
theorem tlsgd_relax_witness :
    ∃ m, applyStepAlloc A5 rels5 0 mem0 [] = some (m, [], true) ∧
      m 147 = 0x65 ∧ m 153 = 0x81 ∧ m 155 = 0xe0 ∧ m 156 = 0x0f ∧
      applyAllocFrom A5 rels5 0 mem0 [] = applyAllocFrom A5 rels5 2 m [] := by
  obtain ⟨hA, -, hloop⟩ :=
    tlsgd_relax_rewrite A5 rels5 0 50 0 54 .R_386_PLT32 0 mem0 []
      rfl rfl rfl
  obtain ⟨m, hm, hins, himm, -⟩ := hA (Or.inl rfl)
  refine ⟨m, hm, ?_, ?_, ?_, ?_, hloop m [] true hm rfl⟩
  · have h := hins 0 (by omega)
    rw [show (147 : Int) = A5.base + 50 - 3 + ((0 : Nat) : Int) from by decide]
      at *
    rw [h]; decide
  · have h := hins 6 (by omega)
    rw [show (153 : Int) = A5.base + 50 - 3 + ((6 : Nat) : Int) from by decide]
      at *
    rw [h]; decide
  · have h := himm 0 (by omega)
    rw [show (155 : Int) = A5.base + 50 + 5 + ((0 : Nat) : Int) from by decide]
      at *
    rw [h]; decide
  · have h := himm 1 (by omega)
    rw [show (156 : Int) = A5.base + 50 + 5 + ((1 : Nat) : Int) from by decide]
      at *
    rw [h]; decide

/-- C6 counterexample: at `.got = 5`, site address `P = 7`, addend 0,
the allocatable applier stores `GOT + A - P = -2` (low byte `0xfe`)
for GOTPC while the non-allocatable applier stores `GOT + A = 5`
(low byte `0x05`): the stored values differ, so GOTPC does not behave
the same in both appliers. -/
theorem gotpc_alloc_nonalloc_differ :
    (applyStepAlloc A6 rels6 0 mem0 []).map (fun t => t.1 0) ≠
    (applyNonallocStep N6 rels6 0 mem0 []).map (fun t => t.1 0) := by
  decide

/-- C6 (amended): with the same context, symbol table, addend reader
and buffer base, and no section fragment, GOTOFF and SIZE32 produce
the identical result in both appliers, while GOTPC stores
`GOT + A - P` in the allocatable applier but `GOT + A` (no `-P`) in
the non-allocatable applier. -/
theorem gotoff_size32_same_gotpc_noP (ctx : Ctx) (ga : ElfRel → Int)
    (dynAbs : Symbol → ElfRel → Int → Int → Int → Int → Mem → Mem)
    (frag : ElfRel → Option (Int × Int))
    (tomb : Symbol → Option (Int × Int) → Option Int)
    (syms : Nat → Symbol) (secAddr base : Int)
    (rels : List ElfRel) (i : Nat) (off : Int) (ty : RType) (si : Nat)
    (mem : Mem) (errs : List LinkErr)
    (hget : rels.get? i = some ⟨off, ty, si⟩)
    (hfile : (syms si).hasFile = true)
    (hfrag : frag ⟨off, ty, si⟩ = none) :
    ((ty = .R_386_GOTOFF ∨ ty = .R_386_SIZE32) →
      ∃ m, applyStepAlloc ⟨ctx, ga, dynAbs, syms, secAddr, base⟩ rels i
             mem errs = some (m, errs, false) ∧
           applyNonallocStep ⟨ctx, ga, frag, tomb, syms, base⟩ rels i
             mem errs = some (m, errs)) ∧
    (ty = .R_386_GOTPC →
      applyNonallocStep ⟨ctx, ga, frag, tomb, syms, base⟩ rels i mem errs =
        some (store32 mem (base + off)
          (ctx.got_addr + ga ⟨off, ty, si⟩), errs) ∧
      applyStepAlloc ⟨ctx, ga, dynAbs, syms, secAddr, base⟩ rels i mem errs =
        some (store32 mem (base + off)
          (ctx.got_addr + ga ⟨off, ty, si⟩ - (secAddr + off)), errs,
          false)) := by
  constructor
  · intro h
    rcases h with h | h <;> subst h <;>
      exact ⟨_, by simp only [applyStepAlloc, hget]; rfl,
                by simp only [applyNonallocStep, hget, hfile, hfrag]; rfl⟩
  · intro h
    subst h
    exact ⟨by simp only [applyNonallocStep, hget, hfile, hfrag]; rfl,
           by simp only [applyStepAlloc, hget]; rfl⟩

/-- Witness for the amended C6: a GOTOFF relocation yields the same
memory and error list through both appliers on concrete inputs. -/
theorem gotoff_size32_witness :
    ∃ m, applyStepAlloc A6 relsOFF 0 mem0 [] = some (m, [], false) ∧
         applyNonallocStep N6 relsOFF 0 mem0 [] = some (m, []) := by
  have h := (gotoff_size32_same_gotpc_noP ctx6 (fun _ => 0)
    (fun _ _ _ _ _ _ m => m) (fun _ => none) (fun _ _ => none)
    (fun _ => symRel) 7 0 relsOFF 0 0 .R_386_GOTOFF 0 mem0 []
    rfl rfl rfl).1 (Or.inl rfl)
  exact h

/-- C9: a narrow (`_8`/`_16`/`PC8`/`PC16`) relocation whose value is
outside its field range records a non-fatal range error carrying the
value and the permitted range, still stores the truncated value at
the site, and the loop continues with the next relocation — in both
appliers. -/
theorem narrow_range_error_continues
    (A : AllocIn) (N : NonallocIn) (rels : List ElfRel) (i : Nat)
    (off : Int) (ty : RType) (si : Nat) (mem : Mem) (errs : List LinkErr)
    (w : Nat) (lo hi : Int)
    (hget : rels.get? i = some ⟨off, ty, si⟩)
    (hnr : narrowRange ty = some (w, lo, hi)) :
    (∀ val, val = (if isPCnarrow ty then
          (A.syms si).addr + A.ga ⟨off, ty, si⟩ - (A.secAddr + off)
        else (A.syms si).addr + A.ga ⟨off, ty, si⟩) →
      val < lo ∨ hi ≤ val →
      applyStepAlloc A rels i mem errs =
        some (storeN w mem (A.base + off) val,
              errs ++ [.range val lo hi], false) ∧
      applyAllocFrom A rels i mem errs =
        applyAllocFrom A rels (i + 1) (storeN w mem (A.base + off) val)
          (errs ++ [.range val lo hi])) ∧
    ((N.syms si).hasFile = true → N.frag ⟨off, ty, si⟩ = none →
      ∀ val, val = (N.syms si).addr + N.ga ⟨off, ty, si⟩ →
      val < lo ∨ hi ≤ val →
      applyNonallocStep N rels i mem errs =
        some (storeN w mem (N.base + off) val,
              errs ++ [.range val lo hi]) ∧
      applyNonallocFrom N rels i mem errs =
        applyNonallocFrom N rels (i + 1) (storeN w mem (N.base + off) val)
          (errs ++ [.range val lo hi])) := by
  have hilen : i < rels.length := by
    by_contra hle
    rw [List.get?_eq_none.mpr (by omega)] at hget
    exact Option.noConfusion hget
  cases ty <;> simp only [narrowRange] at hnr <;>
    try exact Option.noConfusion hnr
  case R_386_8 =>
    injection hnr with h1
    injection h1 with hw h2
    injection h2 with hlo hhi
    subst hw; subst hlo; subst hhi
    constructor
    · intro val hval hout
      have hval' : val =
          (A.syms si).addr + A.ga ⟨off, .R_386_8, si⟩ := hval
      subst hval'
      have hstep : applyStepAlloc A rels i mem errs =
          some (storeN 1 mem (A.base + off)
            ((A.syms si).addr + A.ga ⟨off, .R_386_8, si⟩),
            checkRange errs ((A.syms si).addr + A.ga ⟨off, .R_386_8, si⟩)
              0 ((2 : Int) ^ 8), false) := by
        simp only [applyStepAlloc, hget]; rfl
      rw [checkRange, if_pos hout] at hstep
      refine ⟨hstep, ?_⟩
      conv_lhs => rw [applyAllocFrom]
      rw [dif_pos hilen, hstep]
      rfl
    · intro hfile hfrag val hval hout
      subst hval
      have hstep : applyNonallocStep N rels i mem errs =
          some (storeN 1 mem (N.base + off)
            ((N.syms si).addr + N.ga ⟨off, .R_386_8, si⟩),
            checkRange errs ((N.syms si).addr + N.ga ⟨off, .R_386_8, si⟩)
              0 ((2 : Int) ^ 8)) := by
        simp only [applyNonallocStep, hget, hfile, hfrag]; rfl
      rw [checkRange, if_pos hout] at hstep
      refine ⟨hstep, ?_⟩
      conv_lhs => rw [applyNonallocFrom]
      rw [dif_pos hilen, hstep]
  case R_386_16 =>
    injection hnr with h1
    injection h1 with hw h2
    injection h2 with hlo hhi
    subst hw; subst hlo; subst hhi
    constructor
    · intro val hval hout
      have hval' : val =
          (A.syms si).addr + A.ga ⟨off, .R_386_16, si⟩ := hval
      subst hval'
      have hstep : applyStepAlloc A rels i mem errs =
          some (storeN 2 mem (A.base + off)
            ((A.syms si).addr + A.ga ⟨off, .R_386_16, si⟩),
            checkRange errs ((A.syms si).addr + A.ga ⟨off, .R_386_16, si⟩)
              0 ((2 : Int) ^ 16), false) := by
        simp only [applyStepAlloc, hget]; rfl
      rw [checkRange, if_pos hout] at hstep
      refine ⟨hstep, ?_⟩
      conv_lhs => rw [applyAllocFrom]
      rw [dif_pos hilen, hstep]
      rfl
    · intro hfile hfrag val hval hout
      subst hval
      have hstep : applyNonallocStep N rels i mem errs =
          some (storeN 2 mem (N.base + off)
            ((N.syms si).addr + N.ga ⟨off, .R_386_16, si⟩),
            checkRange errs ((N.syms si).addr + N.ga ⟨off, .R_386_16, si⟩)
              0 ((2 : Int) ^ 16)) := by
        simp only [applyNonallocStep, hget, hfile, hfrag]; rfl
      rw [checkRange, if_pos hout] at hstep
      refine ⟨hstep, ?_⟩
      conv_lhs => rw [applyNonallocFrom]
      rw [dif_pos hilen, hstep]
  case R_386_PC8 =>
    injection hnr with h1
    injection h1 with hw h2
    injection h2 with hlo hhi
    subst hw; subst hlo; subst hhi
    constructor
    · intro val hval hout
      have hval' : val = (A.syms si).addr + A.ga ⟨off, .R_386_PC8, si⟩ -
          (A.secAddr + off) := hval
      subst hval'
      have hstep : applyStepAlloc A rels i mem errs =
          some (storeN 1 mem (A.base + off)
            ((A.syms si).addr + A.ga ⟨off, .R_386_PC8, si⟩ -
              (A.secAddr + off)),
            checkRange errs ((A.syms si).addr + A.ga ⟨off, .R_386_PC8, si⟩ -
              (A.secAddr + off)) (-((2 : Int) ^ 7)) ((2 : Int) ^ 7),
            false) := by
        simp only [applyStepAlloc, hget]; rfl
      rw [checkRange, if_pos hout] at hstep
      refine ⟨hstep, ?_⟩
      conv_lhs => rw [applyAllocFrom]
      rw [dif_pos hilen, hstep]
      rfl
    · intro hfile hfrag val hval hout
      subst hval
      have hstep : applyNonallocStep N rels i mem errs =
          some (storeN 1 mem (N.base + off)
            ((N.syms si).addr + N.ga ⟨off, .R_386_PC8, si⟩),
            checkRange errs ((N.syms si).addr + N.ga ⟨off, .R_386_PC8, si⟩)
              (-((2 : Int) ^ 7)) ((2 : Int) ^ 7)) := by
        simp only [applyNonallocStep, hget, hfile, hfrag]; rfl
      rw [checkRange, if_pos hout] at hstep
      refine ⟨hstep, ?_⟩
      conv_lhs => rw [applyNonallocFrom]
      rw [dif_pos hilen, hstep]
  case R_386_PC16 =>
    injection hnr with h1
    injection h1 with hw h2
    injection h2 with hlo hhi
    subst hw; subst hlo; subst hhi
    constructor
    · intro val hval hout
      have hval' : val = (A.syms si).addr + A.ga ⟨off, .R_386_PC16, si⟩ -
          (A.secAddr + off) := hval
      subst hval'
      have hstep : applyStepAlloc A rels i mem errs =
          some (storeN 2 mem (A.base + off)
            ((A.syms si).addr + A.ga ⟨off, .R_386_PC16, si⟩ -
              (A.secAddr + off)),
            checkRange errs ((A.syms si).addr + A.ga ⟨off, .R_386_PC16, si⟩ -
              (A.secAddr + off)) (-((2 : Int) ^ 15)) ((2 : Int) ^ 15),
            false) := by
        simp only [applyStepAlloc, hget]; rfl
      rw [checkRange, if_pos hout] at hstep
      refine ⟨hstep, ?_⟩
      conv_lhs => rw [applyAllocFrom]
      rw [dif_pos hilen, hstep]
      rfl
    · intro hfile hfrag val hval hout
      subst hval
      have hstep : applyNonallocStep N rels i mem errs =
          some (storeN 2 mem (N.base + off)
            ((N.syms si).addr + N.ga ⟨off, .R_386_PC16, si⟩),
            checkRange errs ((N.syms si).addr + N.ga ⟨off, .R_386_PC16, si⟩)
              (-((2 : Int) ^ 15)) ((2 : Int) ^ 15)) := by
        simp only [applyNonallocStep, hget, hfile, hfrag]; rfl
      rw [checkRange, if_pos hout] at hstep
      refine ⟨hstep, ?_⟩
      conv_lhs => rw [applyNonallocFrom]
      rw [dif_pos hilen, hstep]

/-- Witness for C9, the spec scenario: an `_8` relocation with
`S + A = 0x100` records the range error `256 not in [0, 256)`, stores
the truncated byte 0, and both appliers continue. -/
theorem narrow_range_error_witness :
    (applyStepAlloc A9 rels9 0 mem0 []).map (fun t => (t.1 0, t.2.1)) =
      some (0, [.range 256 0 256]) ∧
    (applyNonallocStep N9 rels9 0 mem0 []).map (fun t => (t.1 0, t.2)) =
      some (0, [.range 256 0 256]) := by
  obtain ⟨h1, h2⟩ := narrow_range_error_continues A9 N9 rels9 0 0 .R_386_8 0
    mem0 [] 1 0 ((2 : Int) ^ 8) rfl rfl
  obtain ⟨ha, -⟩ := h1 256 (by decide) (by decide)
  obtain ⟨hn, -⟩ := h2 rfl rfl 256 (by decide) (by decide)
  rw [ha, hn]
  exact ⟨by decide, by decide⟩

/-- C7: a TLS_GD or TLS_LDM relocation whose follower is missing or
not one of PLT32/PC32/GOT32/GOT32X makes the scan fatal; with a valid
follower the step succeeds, setting `NEEDS_TLSGD` (resp. recording
`needs_tlsld`) or consuming the follower when the relaxation
applies. -/
theorem scan_tls_pair_follower (X : ScanIn) (rels : List ElfRel) (i : Nat)
    (off : Int) (ty : RType) (si : Nat)
    (hget : rels.get? i = some ⟨off, ty, si⟩)
    (hty : ty = .R_386_TLS_GD ∨ ty = .R_386_TLS_LDM)
    (hfile : (X.syms si).hasFile = true) :
    ((∃ e, scanStepAt X rels i = .error e) ↔
      (rels.get? (i + 1) = none ∨
        ∃ r2, rels.get? (i + 1) = some r2 ∧
          r2.r_type ≠ .R_386_PLT32 ∧ r2.r_type ≠ .R_386_PC32 ∧
          r2.r_type ≠ .R_386_GOT32 ∧ r2.r_type ≠ .R_386_GOT32X)) ∧
    ((∃ e, scanStepAt X rels i = .error e) →
      ∃ e, scanFrom X rels i = .error e) ∧
    (∀ r2, rels.get? (i + 1) = some r2 →
      (r2.r_type = .R_386_PLT32 ∨ r2.r_type = .R_386_PC32 ∨
       r2.r_type = .R_386_GOT32 ∨ r2.r_type = .R_386_GOT32X) →
      (ty = .R_386_TLS_GD →
        scanStepAt X rels i = .ok
          ((if (X.syms si).is_ifunc then
              [.setFlag si .needs_got, .setFlag si .needs_plt] else []) ++
            (if X.relax_tlsgd (X.syms si) then []
             else [.setFlag si .needs_tlsgd]),
           X.relax_tlsgd (X.syms si))) ∧
      (ty = .R_386_TLS_LDM →
        scanStepAt X rels i = .ok
          ((if (X.syms si).is_ifunc then
              [.setFlag si .needs_got, .setFlag si .needs_plt] else []) ++
            (if X.relax_tlsld then [] else [.needsTlsld]),
           X.relax_tlsld))) := by
  have hilen : i < rels.length := by
    by_contra hle
    rw [List.get?_eq_none.mpr (by omega)] at hget
    exact Option.noConfusion hget
  rcases hty with hty | hty <;> subst hty
  · have hSA : scanStepAt X rels i =
        match scan_case X rels i (X.syms si) ⟨off, .R_386_TLS_GD, si⟩ with
        | .error e => .error e
        | .ok (effs, b) => .ok
            ((if (X.syms si).is_ifunc then
                [.setFlag si .needs_got, .setFlag si .needs_plt]
              else []) ++ effs, b) := by
      simp only [scanStepAt, hget, hfile]
      rfl
    refine ⟨?_, ?_, ?_⟩
    · cases hf2 : rels.get? (i + 1) with
      | none =>
        refine iff_of_true ⟨"TLS_GD reloc must be followed by PLT or GOT32",
          ?_⟩ (Or.inl rfl)
        rw [hSA]
        simp only [scan_case, hf2]
      | some r2 =>
        by_cases hc : r2.r_type ≠ .R_386_PLT32 ∧ r2.r_type ≠ .R_386_PC32 ∧
            r2.r_type ≠ .R_386_GOT32 ∧ r2.r_type ≠ .R_386_GOT32X
        · refine iff_of_true ⟨"TLS_GD reloc must be followed by PLT or GOT32",
            ?_⟩ (Or.inr ⟨r2, rfl, hc.1, hc.2.1, hc.2.2.1, hc.2.2.2⟩)
          rw [hSA]
          simp only [scan_case, hf2, if_pos hc]
        · refine iff_of_false ?_ ?_
          · rintro ⟨e, he⟩
            rw [hSA] at he
            simp only [scan_case, hf2, if_neg hc] at he
            cases hrx : X.relax_tlsgd (X.syms si) <;> rw [hrx] at he <;>
              exact Except.noConfusion he
          · rintro (h | ⟨r2', hr2', hne⟩)
            · exact Option.noConfusion h
            · injection hr2' with h2
              subst h2
              exact hc hne
    · rintro ⟨e, he⟩
      refine ⟨e, ?_⟩
      conv_lhs => rw [scanFrom]
      rw [dif_pos hilen, he]
    · intro r2 hr2 hgood
      constructor
      · intro _
        rw [hSA]
        simp only [scan_case, hr2,
          if_neg (show ¬(r2.r_type ≠ .R_386_PLT32 ∧ r2.r_type ≠ .R_386_PC32 ∧
            r2.r_type ≠ .R_386_GOT32 ∧ r2.r_type ≠ .R_386_GOT32X) from by
              rcases hgood with h | h | h | h <;> simp [h])]
        cases hrx : X.relax_tlsgd (X.syms si) <;> rfl
      · intro h
        exact absurd h (by decide)
  · have hSA : scanStepAt X rels i =
        match scan_case X rels i (X.syms si) ⟨off, .R_386_TLS_LDM, si⟩ with
        | .error e => .error e
        | .ok (effs, b) => .ok
            ((if (X.syms si).is_ifunc then
                [.setFlag si .needs_got, .setFlag si .needs_plt]
              else []) ++ effs, b) := by
      simp only [scanStepAt, hget, hfile]
      rfl
    refine ⟨?_, ?_, ?_⟩
    · cases hf2 : rels.get? (i + 1) with
      | none =>
        refine iff_of_true ⟨"TLS_LDM reloc must be followed by PLT or GOT32",
          ?_⟩ (Or.inl rfl)
        rw [hSA]
        simp only [scan_case, hf2]
      | some r2 =>
        by_cases hc : r2.r_type ≠ .R_386_PLT32 ∧ r2.r_type ≠ .R_386_PC32 ∧
            r2.r_type ≠ .R_386_GOT32 ∧ r2.r_type ≠ .R_386_GOT32X
        · refine iff_of_true ⟨"TLS_LDM reloc must be followed by PLT or GOT32",
            ?_⟩ (Or.inr ⟨r2, rfl, hc.1, hc.2.1, hc.2.2.1, hc.2.2.2⟩)
          rw [hSA]
          simp only [scan_case, hf2, if_pos hc]
        · refine iff_of_false ?_ ?_
          · rintro ⟨e, he⟩
            rw [hSA] at he
            simp only [scan_case, hf2, if_neg hc] at he
            cases hrx : X.relax_tlsld <;> rw [hrx] at he <;>
              exact Except.noConfusion he
          · rintro (h | ⟨r2', hr2', hne⟩)
            · exact Option.noConfusion h
            · injection hr2' with h2
              subst h2
              exact hc hne
    · rintro ⟨e, he⟩
      refine ⟨e, ?_⟩
      conv_lhs => rw [scanFrom]
      rw [dif_pos hilen, he]
    · intro r2 hr2 hgood
      constructor
      · intro h
        exact absurd h (by decide)
      · intro _
        rw [hSA]
        simp only [scan_case, hr2,
          if_neg (show ¬(r2.r_type ≠ .R_386_PLT32 ∧ r2.r_type ≠ .R_386_PC32 ∧
            r2.r_type ≠ .R_386_GOT32 ∧ r2.r_type ≠ .R_386_GOT32X) from by
              rcases hgood with h | h | h | h <;> simp [h])]
        cases hrx : X.relax_tlsld <;> rfl

/-- Witness for C7: a TLS_GD with a GOT32 follower and no relaxation
scans without a fatal error and sets `NEEDS_TLSGD`. -/
theorem scan_tls_pair_follower_witness :
    scanStepAt Xu rels7 0 = .ok ([.setFlag 0 .needs_tlsgd], false) := by
  have h := (scan_tls_pair_follower Xu rels7 0 0 .R_386_TLS_GD 0 rfl
    (Or.inl rfl) rfl).2.2 ⟨4, .R_386_GOT32, 0⟩ rfl
    (Or.inr (Or.inr (Or.inl rfl))) |>.1 rfl
  exact h

/-- C8 counterexample: scanning a section whose only relocation has
an unknown type does not terminate the link with a fatal error; the
scan completes, merely recording a non-fatal unknown-relocation
error, unlike the `.eh_frame` applier which is immediately fatal. -/
theorem unknown_reloc_scan_not_fatal :
    scan_relocations Xu relsU = .ok [.unknownErr 0] := by
  have h1 : scanFrom Xu relsU 1 = .ok [] := by
    rw [scanFrom]
    rw [dif_neg (by decide)]
  have h1' : scanFrom Xu relsU (0 + if false then 2 else 1) =
      Except.ok [] := h1
  have h0 : scanFrom Xu relsU 0 = .ok [.unknownErr 0] := by
    rw [scanFrom]
    rw [dif_pos (by decide),
      show scanStepAt Xu relsU 0 = Except.ok ([ScanEff.unknownErr 0], false)
        from rfl]
    show (match scanFrom Xu relsU (0 + if false then 2 else 1) with
      | Except.error e => Except.error e
      | Except.ok rest => Except.ok ([ScanEff.unknownErr 0] ++ rest)) =
      Except.ok [ScanEff.unknownErr 0]
    rw [h1']
    rfl
  exact h0

/-- C8 (amended): an unknown relocation type during scan records a
non-fatal error and the scan continues with the next relocation,
while an unsupported relocation type in `.eh_frame` is fatal. -/
theorem unknown_reloc_error_ehframe_fatal :
    (∀ (X : ScanIn) (rels : List ElfRel) (i : Nat) (off : Int) (n : Nat)
      (si : Nat), rels.get? i = some ⟨off, .R_UNKNOWN n, si⟩ →
      (X.syms si).hasFile = true →
      scanStepAt X rels i = .ok
        ((if (X.syms si).is_ifunc then
            [.setFlag si .needs_got, .setFlag si .needs_plt] else []) ++
          [.unknownErr i], false)) ∧
    (∀ (b so sa : Int) (rel : ElfRel) (off v : Int) (mem : Mem),
      rel.r_type ≠ .R_NONE → rel.r_type ≠ .R_386_32 →
      rel.r_type ≠ .R_386_PC32 →
      eh_apply_reloc b so sa rel off v mem =
        .error "unsupported relocation in .eh_frame") := by
  constructor
  · intro X rels i off n si hget hfile
    simp only [scanStepAt, hget, hfile]
    rfl
  · intro b so sa rel off v mem h1 h2 h3
    obtain ⟨o, t, s⟩ := rel
    simp only at h1 h2 h3
    cases t <;> first
      | exact absurd rfl h1
      | exact absurd rfl h2
      | exact absurd rfl h3
      | rfl

/-- Witness for the amended C8: a scan step on an unknown type
returns the recorded error and continues, and an `_8` relocation in
`.eh_frame` is fatal. -/
theorem unknown_reloc_error_witness :
    scanStepAt Xu relsU 0 = .ok ([.unknownErr 0], false) ∧
    eh_apply_reloc 0 0 0 ⟨0, .R_386_8, 0⟩ 0 0 mem0 =
      .error "unsupported relocation in .eh_frame" := by
  constructor
  · exact unknown_reloc_error_ehframe_fatal.1 Xu relsU 0 0 40 0 rfl rfl
  · exact unknown_reloc_error_ehframe_fatal.2 0 0 0 ⟨0, .R_386_8, 0⟩ 0 0 mem0
      (by decide) (by decide) (by decide)

/-- C10: if the apply-time byte at `loc-2` agrees with the byte the
scanner saw, and every symbol for which the scan requested a GOT slot
received one, then the `assert(insn)` in the GOT32X case of the
allocatable applier cannot fail: the step always produces a result. -/
theorem got32x_assert_unreachable
    (X : ScanIn) (A : AllocIn) (rels : List ElfRel) (i : Nat)
    (off : Int) (si : Nat) (mem : Mem) (errs : List LinkErr)
    (hget : rels.get? i = some ⟨off, .R_386_GOT32X, si⟩)
    (hsym : A.syms si = X.syms si)
    (hfile : (X.syms si).hasFile = true)
    (hsame : mem (A.base + off - 2) = X.contents (off - 2))
    (halloc : ∀ effs b, scanStepAt X rels i = .ok (effs, b) →
      ScanEff.setFlag si .needs_got ∈ effs → (X.syms si).has_got = true) :
    (applyStepAlloc A rels i mem errs).isSome = true := by
  have hscan : scanStepAt X rels i = .ok
      ((if (X.syms si).is_ifunc then
          [.setFlag si .needs_got, .setFlag si .needs_plt] else []) ++
        (if (X.ctx.relax && !(X.syms si).is_imported &&
            (X.syms si).is_relative &&
            decide (relax_got32x X.contents (off - 2) ≠ 0)) then []
         else [.setFlag si .needs_got]), false) := by
    simp only [scanStepAt, hget, hfile]
    rfl
  by_cases hg : (X.syms si).has_got = true
  · have hg' : (A.syms si).has_got = true := by rw [hsym]; exact hg
    simp only [applyStepAlloc, hget, hg']
    rfl
  · have hif : (X.syms si).is_ifunc = false := by
      by_cases hifb : (X.syms si).is_ifunc = true
      · exact absurd (halloc _ _ hscan (by simp [hifb])) hg
      · cases h2 : (X.syms si).is_ifunc
        · rfl
        · exact absurd h2 hifb
    have hrelax : (X.ctx.relax && !(X.syms si).is_imported &&
        (X.syms si).is_relative &&
        decide (relax_got32x X.contents (off - 2) ≠ 0)) = true := by
      by_cases hdo : (X.ctx.relax && !(X.syms si).is_imported &&
          (X.syms si).is_relative &&
          decide (relax_got32x X.contents (off - 2) ≠ 0)) = true
      · exact hdo
      · have hb : (X.ctx.relax && !(X.syms si).is_imported &&
            (X.syms si).is_relative &&
            decide (relax_got32x X.contents (off - 2) ≠ 0)) = false := by
          cases h2 : (X.ctx.relax && !(X.syms si).is_imported &&
              (X.syms si).is_relative &&
              decide (relax_got32x X.contents (off - 2) ≠ 0))
          · rfl
          · exact absurd h2 hdo
        exact absurd (halloc _ _ hscan (by rw [hif, hb]; simp)) hg
    have hdec : decide (relax_got32x X.contents (off - 2) ≠ 0) = true := by
      simp only [Bool.and_eq_true] at hrelax
      exact hrelax.2
    have hbyte : X.contents (off - 2) = 0x8b :=
      (relax_got32x_ne_zero_iff _ _).mp (of_decide_eq_true hdec)
    have hmb : mem (A.base + off - 2) = 0x8b := by rw [hsame, hbyte]
    have hins : relax_got32x mem (A.base + off - 2) ≠ 0 :=
      (relax_got32x_ne_zero_iff _ _).mpr hmb
    have hgf : (A.syms si).has_got = false := by
      rw [hsym]
      cases hx : (X.syms si).has_got
      · rfl
      · exact absurd hx hg
    cases hx2 : relax_got32x mem (A.base + off - 2) with
    | zero => exact absurd hx2 hins
    | succ n =>
      simp only [applyStepAlloc, hget, hgf, hx2]
      rfl

/-- Witness for C10: concrete inputs where the symbol has no GOT slot
and the prefix byte is `0x8b`; the apply step succeeds. -/
theorem got32x_assert_witness :
    (applyStepAlloc A10 rels10 0 mem8b []).isSome = true := by
  refine got32x_assert_unreachable X4 A10 rels10 0 0 0 mem8b []
    rfl rfl rfl rfl ?_
  intro effs b h hm
  rw [show scanStepAt X4 rels10 0 = Except.ok ([], false) from rfl] at h
  injection h with h1
  injection h1 with h2 h3
  subst h2
  exact absurd hm (List.not_mem_nil _)

end I386
